import Mathlib

/-!
# go-example: a verification development

Shallow embedding of three packages of the repository:

* `file`         (`file/file.go`): the line reader `ReadLine`;
* `etcdclient`   (`etcdclient/etcdv3cli.go`): the etcd v3 adapter and its transaction builder;
* `docker`       (`dockerclient/docker.go`): the docker client adapter.

The wrapped libraries (`bufio`, `clientv3`, `go-dockerclient`, `reference`, `fmt`, `strings`)
are not part of the repository.  Their calls are recorded as events of a trace, and their
answers are supplied by an arbitrary responder that may depend on the whole history of calls.
-/

set_option autoImplicit false

/-- Go `error` values.  A `sentinel` is a package-level error variable, compared by identity
(`err == dockerclient.ErrNoSuchImage`); a `fresh` one is built at the call site
(`errors.New`, `fmt.Errorf`, or whatever a wrapped library reports). -/
inductive GoError where
  | sentinel (msg : String)
  | fresh (msg : String)
deriving DecidableEq, Repr

/-! ## Package `file` -/

namespace file

/-- A Go `byte`. -/
abbrev Byte := Fin 256

/-- The byte `'\n'`. -/
def newline : Byte := 10

/-- An `io.Reader` wrapped by `bufio.NewReader`: the bytes the underlying reader still delivers,
and the error with which it fails once they are exhausted (`io.EOF` at the end of a stream, or
any other read error). -/
structure Reader where
  data : List Byte
  err : GoError
deriving DecidableEq, Repr

/-- The value `io.EOF`. -/
def EOF : GoError := GoError.sentinel "EOF"

/-- The call `bytes.NewBuffer` followed by writes of `content`: a reader that delivers `content`
and then reports `io.EOF`. -/
def NewBuffer (content : List Byte) : Reader := ⟨content, EOF⟩

/-- The `bufio.Reader.ReadString` method: reads until the first occurrence of `delim`, returning
the bytes up to and including the delimiter.  If the underlying reader fails before a delimiter
is found, it returns the bytes read before the failure together with the error. -/
def ReadString (rd : Reader) (delim : Byte) : (List Byte × Option GoError) × Reader :=
  match rd.data.span (fun b => b != delim) with
  | (pre, []) => ((pre, some rd.err), { rd with data := [] })
  | (pre, d :: rest) => ((pre ++ [d], none), { rd with data := rest })

/-- The goroutine of `ReadLine` (`file/file.go`), run for at most `fuel` iterations of its
`for` loop.  Each iteration calls `ReadString('\n')`: on any error (including `io.EOF`) it closes
the channel and returns, dropping what `ReadString` handed back with the error; otherwise it
sends the line and loops.  The result is `some` of the values sent before the channel was closed,
or `none` when the loop is still running after `fuel` iterations. -/
def ReadLine.loop : Nat → Reader → Option (List (List Byte))
  | 0, _ => none
  | fuel + 1, rd =>
    match ReadString rd newline with
    | ((_, some _), _) => some []
    | ((line, none), rd2) => (ReadLine.loop fuel rd2).map (fun sent => line :: sent)

/-- The function `ReadLine` of `file/file.go`: the sequence of lines received from the returned
channel until it is closed.  Every successful `ReadString` consumes a byte, so one more
iteration than there are bytes left is enough for the loop to end. -/
def ReadLine (read : Reader) : Option (List (List Byte)) :=
  ReadLine.loop (read.data.length + 1) read

/-- A line: its last byte is `'\n'` and no other byte is. -/
abbrev IsLine (l : List Byte) : Prop :=
  l.getLast? = some newline ∧ newline ∉ l.dropLast

/-- The content of a stream up to and including its last `'\n'`: the trailing bytes that are
not `'\n'` are dropped. -/
def uptoLastNewline (data : List Byte) : List Byte :=
  data.rdropWhile (fun b => b != newline)

end file

/-! ## Package `fmt` (the fragment used by the repository) -/

namespace fmt

/-- The scanner of `fmt.Sprintf` for formats whose only verb is `%s` and whose operands are
strings: a `%s` is replaced by the next operand (by `%!s(MISSING)` when none is left), every
other character is copied. -/
def Sprintf.go : List Char → List String → List Char
  | [], _ => []
  | '%' :: 's' :: rest, [] => "%!s(MISSING)".data ++ Sprintf.go rest []
  | '%' :: 's' :: rest, a :: as => a.data ++ Sprintf.go rest as
  | c :: rest, as => c :: Sprintf.go rest as

/-- The call `fmt.Sprintf(format, a...)` with string operands. -/
def Sprintf (format : String) (a : List String) : String :=
  String.mk (Sprintf.go format.data a)

end fmt

/-! ## Package `etcdclient` -/

namespace etcdclient

/-- A `time.Duration` (nanoseconds). -/
abbrev Duration := Int

/-- A `context.Context` as the adapter builds them: `context.Background()`, or
`context.WithTimeout(context.Background(), d)`. -/
inductive Context where
  | Background
  | WithTimeout (d : Duration)
deriving DecidableEq, Repr

namespace clientv3

/-- The struct `clientv3.Config`, with the two fields the adapter sets. -/
structure Config where
  Endpoints : List String
  DialTimeout : Duration
deriving DecidableEq, Repr

/-- The options `clientv3.WithPrefix()` and `clientv3.WithPrevKV()`. -/
inductive OpOption where
  | WithPrefix
  | WithPrevKV
deriving DecidableEq, Repr

/-- The operations `clientv3.OpPut(key, val, opts...)` and `clientv3.OpDelete(key, opts...)`. -/
inductive Op where
  | OpPut (key val : String) (opts : List OpOption)
  | OpDelete (key : String) (opts : List OpOption)
deriving DecidableEq, Repr

/-- A key-value pair of the store (`mvccpb.KeyValue`). -/
structure KeyValue where
  Key : String
  Value : String
deriving DecidableEq, Repr

/-- The struct `clientv3.GetResponse`. -/
structure GetResponse where
  Kvs : List KeyValue
deriving DecidableEq, Repr

/-- The struct `clientv3.PutResponse`. -/
structure PutResponse where
  PrevKv : Option KeyValue
deriving DecidableEq, Repr

/-- The struct `clientv3.DeleteResponse`. -/
structure DeleteResponse where
  Deleted : Int
  PrevKvs : List KeyValue
deriving DecidableEq, Repr

/-- The struct `clientv3.TxnResponse`. -/
structure TxnResponse where
  Succeeded : Bool
deriving DecidableEq, Repr

/-- A `clientv3.WatchChan`, identified by a handle. -/
structure WatchChan where
  handle : Nat
deriving DecidableEq, Repr

/-- The calls the adapter makes on the `clientv3` library, as they appear in a trace. -/
inductive Event where
  | New (cfg : Config)
  | Close
  | Put (ctx : Context) (key val : String)
  | Get (ctx : Context) (key : String) (opts : List OpOption)
  | Delete (ctx : Context) (key : String) (opts : List OpOption)
  | Watch (ctx : Context) (key : String) (opts : List OpOption)
  | TxnThenCommit (ctx : Context) (ops : List Op)
deriving DecidableEq, Repr

/-- The `clientv3` library and the store behind it: the answer to each call, which may depend on
all the calls made before it.  `New` answers `none` when the connection is established.  A call
that returns `(resp, err)` answers `Except.error err` when `err != nil` and `Except.ok resp`
otherwise. -/
structure Library where
  New : List Event → Config → Option GoError
  Put : List Event → Context → String → String → Except GoError PutResponse
  Get : List Event → Context → String → List OpOption → Except GoError GetResponse
  Delete : List Event → Context → String → List OpOption → Except GoError DeleteResponse
  Watch : List Event → Context → String → List OpOption → WatchChan
  TxnThenCommit : List Event → Context → List Op → Except GoError TxnResponse

end clientv3

open clientv3

/-- The struct `EtcdV3Client`. -/
structure EtcdV3Client where
  dialTimeout : Duration
  requestTimeout : Duration
  endpoints : List String
deriving DecidableEq, Repr

/-- The constructor `NewEtcdV3Client`. -/
def NewEtcdV3Client (dialTimeout requestTimeout : Duration) (endpoints : List String) :
    EtcdV3Client :=
  { dialTimeout := dialTimeout, requestTimeout := requestTimeout, endpoints := endpoints }

/-- The method `EtcdV3Client.Put`: connect, and on success issue one put under the request
timeout; the deferred `cli.Close()` runs last.  `hist` is the trace before the call. -/
def Put (lib : Library) (e : EtcdV3Client) (key value : String) (hist : List Event) :
    Except GoError PutResponse × List Event :=
  let cfg : Config := { Endpoints := e.endpoints, DialTimeout := e.dialTimeout }
  match lib.New hist cfg with
  | some err => (Except.error err, hist ++ [Event.New cfg])
  | none =>
    let h1 := hist ++ [Event.New cfg]
    let ctx := Context.WithTimeout e.requestTimeout
    let r := lib.Put h1 ctx key value
    (r, h1 ++ [Event.Put ctx key value, Event.Close])

/-- The method `EtcdV3Client.Get`. -/
def Get (lib : Library) (e : EtcdV3Client) (key : String) (withPrefix : Bool)
    (hist : List Event) : Except GoError GetResponse × List Event :=
  let cfg : Config := { Endpoints := e.endpoints, DialTimeout := e.dialTimeout }
  match lib.New hist cfg with
  | some err => (Except.error err, hist ++ [Event.New cfg])
  | none =>
    let h1 := hist ++ [Event.New cfg]
    let ctx := Context.WithTimeout e.requestTimeout
    if withPrefix then
      (lib.Get h1 ctx key [OpOption.WithPrefix],
        h1 ++ [Event.Get ctx key [OpOption.WithPrefix], Event.Close])
    else
      (lib.Get h1 ctx key [], h1 ++ [Event.Get ctx key [], Event.Close])

/-- What a caller of `Watch` observes: the channel, or the run-time panic of a method call on a
nil `*clientv3.Client`. -/
inductive WatchResult where
  | chan (c : WatchChan)
  | nilClientPanic
deriving DecidableEq, Repr

/-- The method `EtcdV3Client.Watch`.  The error of `clientv3.New` is discarded
(`cli, _ := clientv3.New(...)`) and the method has no error result; when the connection fails
`cli` is nil and `cli.Watch` panics.  The client is not closed. -/
def Watch (lib : Library) (e : EtcdV3Client) (pfx : String) (hist : List Event) :
    WatchResult × List Event :=
  let cfg : Config := { Endpoints := e.endpoints, DialTimeout := e.dialTimeout }
  match lib.New hist cfg with
  | some _ => (WatchResult.nilClientPanic, hist ++ [Event.New cfg])
  | none =>
    let h1 := hist ++ [Event.New cfg]
    (WatchResult.chan (lib.Watch h1 Context.Background pfx [OpOption.WithPrefix]),
      h1 ++ [Event.Watch Context.Background pfx [OpOption.WithPrefix]])

/-- The method `EtcdV3Client.Delete`. -/
def Delete (lib : Library) (e : EtcdV3Client) (key : String) (withPrefix : Bool)
    (hist : List Event) : Except GoError DeleteResponse × List Event :=
  let cfg : Config := { Endpoints := e.endpoints, DialTimeout := e.dialTimeout }
  match lib.New hist cfg with
  | some err => (Except.error err, hist ++ [Event.New cfg])
  | none =>
    let h1 := hist ++ [Event.New cfg]
    let ctx := Context.WithTimeout e.requestTimeout
    if withPrefix then
      (lib.Delete h1 ctx key [OpOption.WithPrefix, OpOption.WithPrevKV],
        h1 ++ [Event.Delete ctx key [OpOption.WithPrefix, OpOption.WithPrevKV], Event.Close])
    else
      (lib.Delete h1 ctx key [], h1 ++ [Event.Delete ctx key [], Event.Close])

/-- The method `EtcdV3Client.HasEntry`. -/
def HasEntry (lib : Library) (e : EtcdV3Client) (key : String) (hist : List Event) :
    Bool × List Event :=
  match Get lib e key false hist with
  | (Except.error _, h) => (false, h)
  | (Except.ok resp, h) => if resp.Kvs.length = 1 then (true, h) else (false, h)

/-- The struct `EtcdV3Txn`. -/
structure EtcdV3Txn where
  dialTimeout : Duration
  requestTimeout : Duration
  endpoints : List String
  ops : List Op
deriving DecidableEq, Repr

/-- The method `EtcdV3Client.Txn`: a builder with the client's settings and no operation. -/
def Txn (e : EtcdV3Client) : EtcdV3Txn :=
  { dialTimeout := e.dialTimeout, requestTimeout := e.requestTimeout, endpoints := e.endpoints,
    ops := [] }

/-- The method `EtcdV3Txn.AddPutOp`: `t.ops = append(t.ops, clientv3.OpPut(key, value))`,
returning the receiver. -/
def AddPutOp (t : EtcdV3Txn) (key value : String) : EtcdV3Txn :=
  { t with ops := t.ops ++ [Op.OpPut key value []] }

/-- The method `EtcdV3Txn.AddDeleteOp`. -/
def AddDeleteOp (t : EtcdV3Txn) (key : String) (withPrefix : Bool) : EtcdV3Txn :=
  let op := if withPrefix then Op.OpDelete key [OpOption.WithPrefix] else Op.OpDelete key []
  { t with ops := t.ops ++ [op] }

/-- The method `EtcdV3Txn.Commit`: connect, then `kvc.Txn(ctx).Then(t.ops...).Commit()`. -/
def Commit (lib : Library) (t : EtcdV3Txn) (hist : List Event) :
    Except GoError TxnResponse × List Event :=
  let cfg : Config := { Endpoints := t.endpoints, DialTimeout := t.dialTimeout }
  match lib.New hist cfg with
  | some err => (Except.error err, hist ++ [Event.New cfg])
  | none =>
    let h1 := hist ++ [Event.New cfg]
    let ctx := Context.WithTimeout t.requestTimeout
    (lib.TxnThenCommit h1 ctx t.ops, h1 ++ [Event.TxnThenCommit ctx t.ops, Event.Close])

/-- One call on a transaction builder. -/
inductive BuilderCall where
  | AddPutOp (key value : String)
  | AddDeleteOp (key : String) (withPrefix : Bool)
deriving DecidableEq, Repr

/-- Performs one builder call on `t`. -/
def BuilderCall.run (t : EtcdV3Txn) : BuilderCall → EtcdV3Txn
  | BuilderCall.AddPutOp key value => etcdclient.AddPutOp t key value
  | BuilderCall.AddDeleteOp key withPrefix => etcdclient.AddDeleteOp t key withPrefix

/-- A chain of builder calls `t.c1(...).c2(...)...`, performed left to right. -/
def chain (t : EtcdV3Txn) (calls : List BuilderCall) : EtcdV3Txn :=
  calls.foldl BuilderCall.run t

/-- The operation a builder call is meant to queue: a put of the pair, or a delete that carries
the prefix option exactly when `withPrefix` is set. -/
def BuilderCall.op : BuilderCall → Op
  | BuilderCall.AddPutOp key value => Op.OpPut key value []
  | BuilderCall.AddDeleteOp key true => Op.OpDelete key [OpOption.WithPrefix]
  | BuilderCall.AddDeleteOp key false => Op.OpDelete key []

/-- The transaction requests of a trace, in order. -/
def txnRequests : List Event → List (List Op)
  | [] => []
  | Event.TxnThenCommit _ ops :: rest => ops :: txnRequests rest
  | _ :: rest => txnRequests rest

/-- Whether an event is a connection attempt. -/
def isConnect : Event → Bool
  | Event.New _ => true
  | _ => false

/-- Whether an event is a request to the store. -/
def isRequest : Event → Bool
  | Event.New _ => false
  | Event.Close => false
  | _ => true

end etcdclient

/-! ## Package `docker` -/

namespace docker

/-- The struct `AuthConfig`. -/
structure AuthConfig where
  Username : String
  Password : String
deriving DecidableEq, Repr

/-- The error built by `NewAuthConfig`. -/
def errAuthNotSet : GoError :=
  GoError.fresh "The username or password for docker registry is not set."

/-- The function `NewAuthConfig`. -/
def NewAuthConfig (username password : String) : Except GoError AuthConfig :=
  if username = "" ∨ password = "" then
    Except.error errAuthNotSet
  else
    Except.ok { Username := username, Password := password }

/-- The struct `RegistryCompose`. -/
structure RegistryCompose where
  RegistryLocation : String
  RegistryUsername : String
  RegistryPassword : String
deriving DecidableEq, Repr

namespace dockerclient

/-- The sentinel `dockerclient.ErrNoSuchImage`. -/
def ErrNoSuchImage : GoError := GoError.sentinel "no such image"

/-- The struct `dockerclient.PullImageOptions`, with the fields the adapter sets. -/
structure PullImageOptions where
  Repository : String
  Registry : String
deriving DecidableEq, Repr

/-- The struct `dockerclient.AuthConfiguration`, with the fields the adapter sets. -/
structure AuthConfiguration where
  Username : String
  Password : String
deriving DecidableEq, Repr

/-- The struct `docker.Config` of a container, with the field the adapter reads. -/
structure Config where
  Image : String
deriving DecidableEq, Repr

/-- The struct `docker.HostConfig`, which the adapter only passes on. -/
structure HostConfig where
  Binds : List String
deriving DecidableEq, Repr

/-- The struct `dockerclient.CreateContainerOptions`. -/
structure CreateContainerOptions where
  Name : String
  Config : Config
  HostConfig : HostConfig
deriving DecidableEq, Repr

/-- The struct `dockerclient.Container`, with the field the adapter reads. -/
structure Container where
  ID : String
deriving DecidableEq, Repr

/-- The struct `dockerclient.RemoveContainerOptions`. -/
structure RemoveContainerOptions where
  ID : String
  RemoveVolumes : Bool
  Force : Bool
deriving DecidableEq, Repr

/-- The calls the adapter makes on the `go-dockerclient` library, as they appear in a trace. -/
inductive Event where
  | NewClient (endpoint : String)
  | NewTLSClient (endpoint cert key ca : String)
  | Version
  | InspectImage (name : String)
  | PullImage (opts : PullImageOptions) (auth : AuthConfiguration)
  | CreateContainer (opts : CreateContainerOptions)
  | StartContainer (id : String) (hostConfig : HostConfig)
  | RemoveContainer (opts : RemoveContainerOptions)
deriving DecidableEq, Repr

end dockerclient

/-- A parsed `reference.Reference`: `tag` is `some t` when the reference implements
`reference.Tagged` with `Tag() = t`, and `none` when it does not. -/
structure Reference where
  tag : Option String
deriving DecidableEq, Repr

open dockerclient

/-- The libraries behind the adapter.  The daemon calls answer depending on all the calls made
before them; a call returning only an `error` answers `none` for `nil`.  `Parse` is
`reference.Parse` and `ToLower` is `strings.ToLower`, both pure. -/
structure Library where
  NewClient : List Event → String → Option GoError
  NewTLSClient : List Event → String → String → String → String → Option GoError
  Version : List Event → Option GoError
  InspectImage : List Event → String → Option GoError
  PullImage : List Event → PullImageOptions → AuthConfiguration → Option GoError
  CreateContainer : List Event → CreateContainerOptions → Except GoError Container
  StartContainer : List Event → String → HostConfig → Option GoError
  RemoveContainer : List Event → RemoveContainerOptions → Option GoError
  Parse : String → Except GoError Reference
  ToLower : String → String

/-- The struct `Client`; the handle of the underlying client is the library itself. -/
structure Client where
  Registry : String
  AuthConfig : AuthConfig
  EndPoint : String
deriving DecidableEq, Repr

/-- The function `NewClient`. -/
def NewClient (lib : Library) (endpoint certPath : String) (registry : RegistryCompose)
    (hist : List Event) : Except GoError Client × List Event :=
  match NewAuthConfig registry.RegistryUsername registry.RegistryPassword with
  | Except.error err => (Except.error err, hist)
  | Except.ok authConfig =>
    if certPath = "" then
      match lib.NewClient hist endpoint with
      | some err => (Except.error err, hist ++ [Event.NewClient endpoint])
      | none =>
        (Except.ok { Registry := registry.RegistryLocation, AuthConfig := authConfig,
                     EndPoint := endpoint },
          hist ++ [Event.NewClient endpoint])
    else
      let cert := fmt.Sprintf "%s/cert.pem" [certPath]
      let key := fmt.Sprintf "%s/key.pem" [certPath]
      let ca := fmt.Sprintf "%s/ca.pem" [certPath]
      let h1 := hist ++ [Event.NewTLSClient endpoint cert key ca]
      match lib.NewTLSClient hist endpoint cert key ca with
      | some err => (Except.error err, h1)
      | none =>
        match lib.Version h1 with
        | some err => (Except.error err, h1 ++ [Event.Version])
        | none =>
          (Except.ok { Registry := registry.RegistryLocation, AuthConfig := authConfig,
                       EndPoint := endpoint },
            h1 ++ [Event.Version])

/-- The method `Client.PullImage`. -/
def PullImage (lib : Library) (c : Client) (imageName : String) (hist : List Event) :
    Option GoError × List Event :=
  match lib.Parse imageName with
  | Except.error err => (some err, hist)
  | Except.ok repo =>
    let untagged : Bool :=
      match repo.tag with
      | none => true
      | some t => t == ""
    let imageName := if untagged then fmt.Sprintf "%s:%s" [imageName, "latest"] else imageName
    let opts : PullImageOptions := { Repository := imageName, Registry := c.Registry }
    let authOpt : AuthConfiguration :=
      { Username := c.AuthConfig.Username, Password := c.AuthConfig.Password }
    (lib.PullImage hist opts authOpt, hist ++ [Event.PullImage opts authOpt])

/-- The method `Client.IsImagePresent`. -/
def IsImagePresent (lib : Library) (image : String) (hist : List Event) :
    (Bool × Option GoError) × List Event :=
  let h1 := hist ++ [Event.InspectImage image]
  match lib.InspectImage hist image with
  | none => ((true, none), h1)
  | some err => if err = ErrNoSuchImage then ((false, none), h1) else ((false, some err), h1)

/-- The method `Client.RunContainer`. -/
def RunContainer (lib : Library) (c : Client) (cco : CreateContainerOptions)
    (hist : List Event) : (String × Option GoError) × List Event :=
  match IsImagePresent lib cco.Config.Image hist with
  | ((_, some err), h1) => (("", some err), h1)
  | ((isImageExisted, none), h1) =>
    let pulled : Option GoError × List Event :=
      if isImageExisted = false then PullImage lib c cco.Config.Image h1 else (none, h1)
    match pulled with
    | (some err, h2) => (("", some err), h2)
    | (none, h2) =>
      let h3 := h2 ++ [Event.CreateContainer cco]
      match lib.CreateContainer h2 cco with
      | Except.error err => (("", some err), h3)
      | Except.ok container =>
        let h4 := h3 ++ [Event.StartContainer container.ID cco.HostConfig]
        match lib.StartContainer h3 container.ID cco.HostConfig with
        | some err =>
          let rm : RemoveContainerOptions :=
            { ID := container.ID, RemoveVolumes := false, Force := false }
          (("", some err), h4 ++ [Event.RemoveContainer rm])
        | none => ((container.ID, none), h4)

/-- The method `Client.GetImageNameWithTag`. -/
def GetImageNameWithTag (lib : Library) (c : Client) (username serviceName versionName : String) :
    String :=
  fmt.Sprintf "%s/%s/%s:%s"
    [c.Registry, lib.ToLower username, lib.ToLower serviceName, versionName]

/-- The method `Client.GetImageNameNoTag`. -/
def GetImageNameNoTag (lib : Library) (c : Client) (username serviceName : String) : String :=
  fmt.Sprintf "%s/%s/%s" [c.Registry, lib.ToLower username, lib.ToLower serviceName]

end docker

/-! ## Concrete libraries, used to evaluate the adapters -/

namespace etcdclient

open clientv3

/-- The configuration every adapter method hands to `clientv3.New`. -/
def dialConfig (endpoints : List String) (dialTimeout : Duration) : Config :=
  { Endpoints := endpoints, DialTimeout := dialTimeout }

/-- A client with a 5 s dial timeout and a 1 s request timeout. -/
def sampleClient : EtcdV3Client :=
  NewEtcdV3Client 5000000000 1000000000 ["127.0.0.1:2379"]

/-- A reachable store that holds the single pair `k ↦ v`.  As etcd does, a delete reports the
previous key-value pairs only when the request carries `WithPrevKV`. -/
def sampleStore : Library where
  New := fun _ _ => none
  Put := fun _ _ _ _ => Except.ok { PrevKv := none }
  Get := fun _ _ key _ =>
    Except.ok { Kvs := if key = "k" then [{ Key := "k", Value := "v" }] else [] }
  Delete := fun _ _ key opts =>
    Except.ok
      { Deleted := if key = "k" then 1 else 0,
        PrevKvs :=
          if key = "k" ∧ OpOption.WithPrevKV ∈ opts then [{ Key := "k", Value := "v" }]
          else [] }
  Watch := fun _ _ _ _ => { handle := 0 }
  TxnThenCommit := fun _ _ _ => Except.ok { Succeeded := true }

/-- A store that cannot be reached: every `clientv3.New` fails with `err`. -/
def unreachableStore (err : GoError) : Library :=
  { sampleStore with New := fun _ _ => some err }

/-- A store that accepts connections and fails every request with `err`. -/
def failingStore (err : GoError) : Library where
  New := fun _ _ => none
  Put := fun _ _ _ _ => Except.error err
  Get := fun _ _ _ _ => Except.error err
  Delete := fun _ _ _ _ => Except.error err
  Watch := fun _ _ _ _ => { handle := 0 }
  TxnThenCommit := fun _ _ _ => Except.error err

end etcdclient

namespace docker

open dockerclient

/-- A daemon that holds the image `busybox:1.0` only, pulls anything, creates the container
`c1`, and refuses to start it.  Its `Parse` is a stand-in for `reference.Parse` that rejects
the empty name and sees a tag in `busybox:1.0` only. -/
def sampleDaemon : Library where
  NewClient := fun _ _ => none
  NewTLSClient := fun _ _ _ _ _ => none
  Version := fun _ => none
  InspectImage := fun _ name => if name = "busybox:1.0" then none else some ErrNoSuchImage
  PullImage := fun _ _ _ => none
  CreateContainer := fun _ _ => Except.ok { ID := "c1" }
  StartContainer := fun _ _ _ => some (GoError.fresh "port is already allocated")
  RemoveContainer := fun _ _ => none
  Parse := fun name =>
    if name = "" then Except.error (GoError.sentinel "invalid reference format")
    else if name = "busybox:1.0" then Except.ok { tag := some "1.0" }
    else Except.ok { tag := none }
  ToLower := String.toLower

/-- A client of the registry `cargo.caicloud.io`. -/
def sampleClient : Client :=
  { Registry := "cargo.caicloud.io", AuthConfig := { Username := "u", Password := "p" },
    EndPoint := "unix:///var/run/docker.sock" }

/-- A request to create a container from the image `alpine`. -/
def sampleRequest : CreateContainerOptions :=
  { Name := "web", Config := { Image := "alpine" }, HostConfig := { Binds := [] } }

end docker

/-! ## Theorems: package `file` -/

namespace file

theorem isLine_eq {l : List Byte} (h : IsLine l) : l = l.dropLast ++ [newline] :=
  (List.dropLast_append_getLast? newline (by simp [h.1])).symm

theorem span_no_delim (delim : Byte) (body : List Byte) (h : delim ∉ body) :
    body.span (fun b => b != delim) = (body, []) := by
  rw [List.span_eq_take_drop]
  have hall : ∀ b ∈ body, (fun b => b != delim) b = true := by
    intro b hb
    simp only [bne_iff_ne, ne_eq]
    rintro rfl
    exact h hb
  rw [List.takeWhile_eq_self_iff.mpr hall, List.dropWhile_eq_nil_iff.mpr hall]

theorem span_at_delim (delim : Byte) (body rest : List Byte) (h : delim ∉ body) :
    (body ++ delim :: rest).span (fun b => b != delim) = (body, delim :: rest) := by
  rw [List.span_eq_take_drop]
  induction body with
  | nil => simp
  | cons a body ih =>
    have ha : a ≠ delim := fun e => h (e ▸ List.mem_cons_self _ _)
    have hb : delim ∉ body := fun m => h (List.mem_cons_of_mem _ m)
    have := ih hb
    simp only [Prod.mk.injEq] at this
    simp [List.takeWhile_cons, List.dropWhile_cons, ha, this.1, this.2]

theorem ReadString_no_delim (data : List Byte) (err : GoError) (delim : Byte)
    (h : delim ∉ data) :
    ReadString ⟨data, err⟩ delim = ((data, some err), ⟨[], err⟩) := by
  simp only [ReadString, span_no_delim delim data h]

theorem ReadString_at_delim (body rest : List Byte) (err : GoError) (delim : Byte)
    (h : delim ∉ body) :
    ReadString ⟨body ++ delim :: rest, err⟩ delim
      = ((body ++ [delim], none), ⟨rest, err⟩) := by
  simp only [ReadString, span_at_delim delim body rest h]

/-- Every byte list either has no delimiter, or splits at its first delimiter. -/
theorem split_first (delim : Byte) (data : List Byte) :
    delim ∉ data ∨ ∃ body rest, delim ∉ body ∧ data = body ++ delim :: rest := by
  induction data with
  | nil => left; simp
  | cons a data ih =>
    by_cases ha : a = delim
    · right; exact ⟨[], data, by simp, by simp [ha]⟩
    · rcases ih with h | ⟨body, rest, hb, rfl⟩
      · left
        simp only [List.mem_cons, not_or]
        exact ⟨fun e => ha e.symm, h⟩
      · right
        refine ⟨a :: body, rest, ?_, by simp⟩
        simp only [List.mem_cons, not_or]
        exact ⟨fun e => ha e.symm, hb⟩

theorem loop_lines (err : GoError) (lines : List (List Byte)) (hl : ∀ l ∈ lines, IsLine l) :
    ∀ fuel, lines.flatten.length < fuel →
      ReadLine.loop fuel ⟨lines.flatten, err⟩ = some lines := by
  induction lines with
  | nil =>
    intro fuel hf
    cases fuel with
    | zero => omega
    | succ n => simp [ReadLine.loop, ReadString]
  | cons l lines ih =>
    intro fuel hf
    cases fuel with
    | zero => omega
    | succ n =>
      have hline := hl l (List.mem_cons_self _ _)
      have hl2 : ∀ x ∈ lines, IsLine x := fun x hx => hl x (List.mem_cons_of_mem _ hx)
      have heq := isLine_eq hline
      have hdata : (l :: lines).flatten = l.dropLast ++ newline :: lines.flatten := by
        rw [List.flatten_cons]
        nth_rewrite 1 [heq]
        simp
      have hlen : lines.flatten.length < n := by
        rw [hdata] at hf
        simp only [List.length_append, List.length_cons] at hf
        omega
      rw [hdata, ReadLine.loop, ReadString_at_delim _ _ _ _ hline.2]
      simp only [ih hl2 n hlen, Option.map_some', ← heq]

theorem loop_spec (err : GoError) :
    ∀ fuel data, data.length < fuel →
      ∃ lines tail, ReadLine.loop fuel ⟨data, err⟩ = some lines ∧
        (∀ l ∈ lines, IsLine l) ∧ newline ∉ tail ∧ data = lines.flatten ++ tail := by
  intro fuel
  induction fuel with
  | zero => intro data h; omega
  | succ n ih =>
    intro data hf
    rcases split_first newline data with h | ⟨body, rest, hb, rfl⟩
    · exact ⟨[], data, by simp [ReadLine.loop, ReadString_no_delim data err newline h], by simp,
        h, by simp⟩
    · have hlen : rest.length < n := by
        simp at hf
        omega
      obtain ⟨lines, tail, hrun, hlines, htail, hrest⟩ := ih rest hlen
      refine ⟨(body ++ [newline]) :: lines, tail, ?_, ?_, htail, ?_⟩
      · rw [ReadLine.loop, ReadString_at_delim _ _ _ _ hb]
        simp [hrun]
      · intro l hmem
        rcases List.mem_cons.mp hmem with rfl | hmem
        · exact ⟨by simp, by simpa using hb⟩
        · exact hlines l hmem
      · simp [hrest]

theorem join_lines_ends (lines : List (List Byte)) (hl : ∀ l ∈ lines, IsLine l) :
    lines.flatten = [] ∨ ∃ pre, lines.flatten = pre ++ [newline] := by
  induction lines with
  | nil => left; rfl
  | cons l lines ih =>
    right
    have hline := hl l (List.mem_cons_self _ _)
    rcases ih (fun x hx => hl x (List.mem_cons_of_mem _ hx)) with h | ⟨pre, h⟩
    · exact ⟨l.dropLast, by rw [List.flatten_cons, h, List.append_nil]; exact isLine_eq hline⟩
    · exact ⟨l ++ pre, by rw [List.flatten_cons, h, List.append_assoc]⟩

theorem uptoLastNewline_append (joined tail : List Byte)
    (hj : joined = [] ∨ ∃ pre, joined = pre ++ [newline]) (ht : newline ∉ tail) :
    uptoLastNewline (joined ++ tail) = joined := by
  unfold uptoLastNewline
  induction tail using List.reverseRecOn with
  | nil =>
    rcases hj with rfl | ⟨pre, rfl⟩
    · simp [List.rdropWhile]
    · rw [List.append_nil, List.rdropWhile_concat]
      simp
  | append_singleton tail a ih =>
    have ha : a ≠ newline := fun e => ht (by simp [e])
    have ht2 : newline ∉ tail := fun m => ht (by simp [m])
    rw [← List.append_assoc, List.rdropWhile_concat]
    simp [ha, ih ht2]

/-- Claim C1: for every list of lines, each ending with its only `'\n'`, `ReadLine` on a stream
holding their concatenation produces exactly those lines, in order and with their terminators,
and then the channel closes; this holds whatever error ends the stream, and for the empty list
nothing is produced. -/
theorem ReadLine_lines (lines : List (List Byte)) (err : GoError)
    (hl : ∀ l ∈ lines, IsLine l) :
    ReadLine ⟨lines.flatten, err⟩ = some lines :=
  loop_lines err lines hl _ (Nat.lt_succ_self _)

/-- The test `Test_ReadLine` of `file/file_test.go`: the lines `"aaaaaa\n"`, `"bbbbbb\n"`,
`"cccccc\n"` written to a buffer are read back unchanged. -/
theorem ReadLine_lines_witness :
    (∀ l ∈ [[97, 97, 97, 97, 97, 97, 10], [98, 98, 98, 98, 98, 98, 10],
        [99, 99, 99, 99, 99, 99, 10]], IsLine l) ∧
    ReadLine (NewBuffer ([[97, 97, 97, 97, 97, 97, 10], [98, 98, 98, 98, 98, 98, 10],
        [99, 99, 99, 99, 99, 99, 10]] : List (List Byte)).flatten)
      = some [[97, 97, 97, 97, 97, 97, 10], [98, 98, 98, 98, 98, 98, 10],
        [99, 99, 99, 99, 99, 99, 10]] :=
  ⟨by decide, ReadLine_lines _ EOF (by decide)⟩

/-- Claim C10: for every byte stream, whether or not it ends with `'\n'` and whatever error ends
it, `ReadLine` produces a sequence in which every line ends with `'\n'` and holds no other
`'\n'`; the lines concatenated equal the content up to and including the last `'\n'`; the
stream is that concatenation followed by a fragment without `'\n'`, which is never produced; and
a stream without `'\n'` produces nothing. -/
theorem ReadLine_any_stream (data : List Byte) (err : GoError) :
    ∃ lines, ReadLine ⟨data, err⟩ = some lines ∧
      (∀ l ∈ lines, IsLine l) ∧
      lines.flatten = uptoLastNewline data ∧
      (∃ tail, newline ∉ tail ∧ data = lines.flatten ++ tail) ∧
      (newline ∉ data → lines = []) := by
  obtain ⟨lines, tail, hrun, hlines, htail, hdata⟩ :=
    loop_spec err (data.length + 1) data (Nat.lt_succ_self _)
  refine ⟨lines, hrun, hlines, ?_, ⟨tail, htail, hdata⟩, ?_⟩
  · rw [hdata]
    exact (uptoLastNewline_append _ tail (join_lines_ends lines hlines) htail).symm
  · intro hno
    cases lines with
    | nil => rfl
    | cons l rest =>
      exfalso
      have hline := hlines l (List.mem_cons_self _ _)
      apply hno
      rw [hdata, List.flatten_cons, isLine_eq hline]
      simp

end file

/-! ## Theorems: package `etcdclient` -/

namespace etcdclient

open clientv3

/-- Claim C2: `HasEntry(key)` is true exactly when the exact-match `Get(key, false)` succeeds
with a response of exactly one key-value pair; it is false whenever that `Get` returns an error
and whenever the response holds zero or several pairs; and the only calls it makes are those of
that `Get`. -/
theorem HasEntry_iff (lib : Library) (e : EtcdV3Client) (key : String) (hist : List Event) :
    ((HasEntry lib e key hist).1 = true ↔
        ∃ resp, (Get lib e key false hist).1 = Except.ok resp ∧ resp.Kvs.length = 1) ∧
      (∀ err, (Get lib e key false hist).1 = Except.error err →
        (HasEntry lib e key hist).1 = false) ∧
      (∀ resp, (Get lib e key false hist).1 = Except.ok resp → resp.Kvs.length ≠ 1 →
        (HasEntry lib e key hist).1 = false) ∧
      (HasEntry lib e key hist).2 = (Get lib e key false hist).2 := by
  unfold HasEntry
  rcases hg : Get lib e key false hist with ⟨r, h⟩
  cases r with
  | error err => simp
  | ok resp =>
    by_cases hlen : resp.Kvs.length = 1
    · simp [hlen]
    · simp [hlen]

/-- The predicate at the sample store: the key `k` has one entry, the key `missing` has none,
and an unreachable store answers `false`. -/
theorem HasEntry_iff_witness :
    (HasEntry sampleStore sampleClient "k" []).1 = true ∧
      (HasEntry sampleStore sampleClient "missing" []).1 = false ∧
      (HasEntry (unreachableStore (GoError.fresh "dial timeout")) sampleClient "k" []).1
        = false :=
  ⟨(HasEntry_iff sampleStore sampleClient "k" []).1.mpr ⟨_, rfl, by decide⟩,
    (HasEntry_iff sampleStore sampleClient "missing" []).2.2.1 _ rfl (by decide),
    (HasEntry_iff (unreachableStore (GoError.fresh "dial timeout")) sampleClient "k" []).2.1 _
      rfl⟩

/-- Claim C3, evaluated at the sample store: deleting the single key `k` sends a delete request
without any option, so the response carries no previous value, whereas deleting under the prefix
`k` sends `WithPrefix` and `WithPrevKV` and the response carries the previous pair. -/
theorem Delete_single_key_omits_prevKV :
    Delete sampleStore sampleClient "k" false []
        = (Except.ok { Deleted := 1, PrevKvs := [] },
            [Event.New (dialConfig ["127.0.0.1:2379"] 5000000000),
              Event.Delete (Context.WithTimeout 1000000000) "k" [],
              Event.Close]) ∧
      Delete sampleStore sampleClient "k" true []
        = (Except.ok { Deleted := 1, PrevKvs := [{ Key := "k", Value := "v" }] },
            [Event.New (dialConfig ["127.0.0.1:2379"] 5000000000),
              Event.Delete (Context.WithTimeout 1000000000) "k"
                [OpOption.WithPrefix, OpOption.WithPrevKV],
              Event.Close]) :=
  ⟨rfl, rfl⟩

theorem run_ops (t : EtcdV3Txn) (call : BuilderCall) :
    (call.run t).ops = t.ops ++ [call.op] := by
  cases call with
  | AddPutOp key value => rfl
  | AddDeleteOp key withPrefix => cases withPrefix <;> rfl

theorem run_settings (t : EtcdV3Txn) (call : BuilderCall) :
    (call.run t).dialTimeout = t.dialTimeout ∧ (call.run t).requestTimeout = t.requestTimeout ∧
      (call.run t).endpoints = t.endpoints := by
  cases call with
  | AddPutOp key value => exact ⟨rfl, rfl, rfl⟩
  | AddDeleteOp key withPrefix => exact ⟨rfl, rfl, rfl⟩

theorem chain_ops (calls : List BuilderCall) :
    ∀ t : EtcdV3Txn, (chain t calls).ops = t.ops ++ calls.map BuilderCall.op := by
  induction calls with
  | nil => intro t; simp [chain]
  | cons call calls ih =>
    intro t
    have h := ih (call.run t)
    simp only [chain, List.foldl_cons] at h ⊢
    rw [h, run_ops]
    simp

theorem chain_settings (calls : List BuilderCall) :
    ∀ t : EtcdV3Txn, (chain t calls).dialTimeout = t.dialTimeout ∧
      (chain t calls).requestTimeout = t.requestTimeout ∧
      (chain t calls).endpoints = t.endpoints := by
  induction calls with
  | nil => intro t; exact ⟨rfl, rfl, rfl⟩
  | cons call calls ih =>
    intro t
    have h := ih (call.run t)
    have hs := run_settings t call
    simp only [chain, List.foldl_cons] at h ⊢
    exact ⟨h.1.trans hs.1, h.2.1.trans hs.2.1, h.2.2.trans hs.2.2⟩

theorem Commit_connected (lib : Library) (t : EtcdV3Txn) (hist : List Event)
    (hconn : lib.New hist (dialConfig t.endpoints t.dialTimeout) = none) :
    Commit lib t hist
      = (lib.TxnThenCommit (hist ++ [Event.New (dialConfig t.endpoints t.dialTimeout)])
            (Context.WithTimeout t.requestTimeout) t.ops,
          hist ++ [Event.New (dialConfig t.endpoints t.dialTimeout),
            Event.TxnThenCommit (Context.WithTimeout t.requestTimeout) t.ops, Event.Close]) := by
  unfold dialConfig at hconn
  simp [Commit, hconn, dialConfig]

/-- Claim C4: every `AddPutOp` / `AddDeleteOp` call leaves the builder's settings and its earlier
operations as they were and appends its own operation last (a delete carries the prefix option
exactly when `withPrefix` is true); after any chain of calls on `Txn()` the builder holds the
operations of the calls in call order; and `Commit`, when the connection succeeds, makes one
connection, submits exactly one transaction request, whose operation list is that sequence,
returns the store's answer to it, and closes the connection. -/
theorem Commit_submits_chain (lib : Library) (e : EtcdV3Client) (calls : List BuilderCall)
    (hist : List Event)
    (hconn : lib.New hist (dialConfig e.endpoints e.dialTimeout) = none) :
    (∀ (t : EtcdV3Txn) (call : BuilderCall),
        (call.run t).ops = t.ops ++ [call.op] ∧ (call.run t).dialTimeout = t.dialTimeout ∧
          (call.run t).requestTimeout = t.requestTimeout ∧
          (call.run t).endpoints = t.endpoints) ∧
      (chain (Txn e) calls).ops = calls.map BuilderCall.op ∧
      Commit lib (chain (Txn e) calls) hist
        = (lib.TxnThenCommit (hist ++ [Event.New (dialConfig e.endpoints e.dialTimeout)])
              (Context.WithTimeout e.requestTimeout) (calls.map BuilderCall.op),
            hist ++ [Event.New (dialConfig e.endpoints e.dialTimeout),
              Event.TxnThenCommit (Context.WithTimeout e.requestTimeout)
                (calls.map BuilderCall.op),
              Event.Close]) ∧
      txnRequests ((Commit lib (chain (Txn e) calls) hist).2.drop hist.length)
        = [calls.map BuilderCall.op] := by
  have hops : (chain (Txn e) calls).ops = calls.map BuilderCall.op := by
    rw [chain_ops]; rfl
  obtain ⟨hd, hr, he⟩ := chain_settings calls (Txn e)
  have hcommit : Commit lib (chain (Txn e) calls) hist
        = (lib.TxnThenCommit (hist ++ [Event.New (dialConfig e.endpoints e.dialTimeout)])
              (Context.WithTimeout e.requestTimeout) (calls.map BuilderCall.op),
            hist ++ [Event.New (dialConfig e.endpoints e.dialTimeout),
              Event.TxnThenCommit (Context.WithTimeout e.requestTimeout)
                (calls.map BuilderCall.op),
              Event.Close]) := by
    have hconn2 : lib.New hist (dialConfig (chain (Txn e) calls).endpoints
        (chain (Txn e) calls).dialTimeout) = none := by
      rw [hd, he]; exact hconn
    rw [Commit_connected lib _ hist hconn2, hd, hr, he, hops]
    rfl
  refine ⟨fun t call => ⟨run_ops t call, run_settings t call⟩, hops, hcommit, ?_⟩
  rw [hcommit]
  simp [txnRequests]

/-- A put and two deletes chained on `Txn()` and committed against the sample store. -/
theorem Commit_submits_chain_witness :
    txnRequests
        ((Commit sampleStore
            (chain (Txn sampleClient)
              [BuilderCall.AddPutOp "a" "1", BuilderCall.AddDeleteOp "b" true,
                BuilderCall.AddDeleteOp "c" false]) []).2.drop 0)
      = [[Op.OpPut "a" "1" [], Op.OpDelete "b" [OpOption.WithPrefix], Op.OpDelete "c" []]] :=
  (Commit_submits_chain sampleStore sampleClient
    [BuilderCall.AddPutOp "a" "1", BuilderCall.AddDeleteOp "b" true,
      BuilderCall.AddDeleteOp "c" false] [] rfl).2.2.2

/-- The events an adapter call added to the trace `hist`. -/
theorem drop_hist (hist new : List Event) : (hist ++ new).drop hist.length = new :=
  List.drop_left hist new

theorem Put_trace (lib : Library) (e : EtcdV3Client) (key value : String) (hist : List Event) :
    (Put lib e key value hist).2
      = hist ++ (match lib.New hist (dialConfig e.endpoints e.dialTimeout) with
        | some _ => [Event.New (dialConfig e.endpoints e.dialTimeout)]
        | none => [Event.New (dialConfig e.endpoints e.dialTimeout),
            Event.Put (Context.WithTimeout e.requestTimeout) key value, Event.Close]) := by
  unfold Put dialConfig
  cases h : lib.New hist { Endpoints := e.endpoints, DialTimeout := e.dialTimeout } <;> simp [h]

theorem Get_trace (lib : Library) (e : EtcdV3Client) (key : String) (withPrefix : Bool)
    (hist : List Event) :
    (Get lib e key withPrefix hist).2
      = hist ++ (match lib.New hist (dialConfig e.endpoints e.dialTimeout) with
        | some _ => [Event.New (dialConfig e.endpoints e.dialTimeout)]
        | none => [Event.New (dialConfig e.endpoints e.dialTimeout),
            Event.Get (Context.WithTimeout e.requestTimeout) key
              (if withPrefix then [OpOption.WithPrefix] else []), Event.Close]) := by
  unfold Get dialConfig
  cases h : lib.New hist { Endpoints := e.endpoints, DialTimeout := e.dialTimeout } <;>
    cases withPrefix <;> simp [h]

theorem Delete_trace (lib : Library) (e : EtcdV3Client) (key : String) (withPrefix : Bool)
    (hist : List Event) :
    (Delete lib e key withPrefix hist).2
      = hist ++ (match lib.New hist (dialConfig e.endpoints e.dialTimeout) with
        | some _ => [Event.New (dialConfig e.endpoints e.dialTimeout)]
        | none => [Event.New (dialConfig e.endpoints e.dialTimeout),
            Event.Delete (Context.WithTimeout e.requestTimeout) key
              (if withPrefix then [OpOption.WithPrefix, OpOption.WithPrevKV] else []),
            Event.Close]) := by
  unfold Delete dialConfig
  cases h : lib.New hist { Endpoints := e.endpoints, DialTimeout := e.dialTimeout } <;>
    cases withPrefix <;> simp [h]

theorem Commit_trace (lib : Library) (t : EtcdV3Txn) (hist : List Event) :
    (Commit lib t hist).2
      = hist ++ (match lib.New hist (dialConfig t.endpoints t.dialTimeout) with
        | some _ => [Event.New (dialConfig t.endpoints t.dialTimeout)]
        | none => [Event.New (dialConfig t.endpoints t.dialTimeout),
            Event.TxnThenCommit (Context.WithTimeout t.requestTimeout) t.ops, Event.Close]) := by
  unfold Commit dialConfig
  cases h : lib.New hist { Endpoints := t.endpoints, DialTimeout := t.dialTimeout } <;> simp [h]

theorem Watch_trace (lib : Library) (e : EtcdV3Client) (pfx : String) (hist : List Event) :
    (Watch lib e pfx hist).2
      = hist ++ (match lib.New hist (dialConfig e.endpoints e.dialTimeout) with
        | some _ => [Event.New (dialConfig e.endpoints e.dialTimeout)]
        | none => [Event.New (dialConfig e.endpoints e.dialTimeout),
            Event.Watch Context.Background pfx [OpOption.WithPrefix]]) := by
  unfold Watch dialConfig
  cases h : lib.New hist { Endpoints := e.endpoints, DialTimeout := e.dialTimeout } <;> simp [h]

/-- Claim C5, evaluated at an unreachable store: `Get` returns the error of the connection
attempt unchanged and sends nothing more, as the claim says, whereas `Watch` at the same store
does not return it: whichever of two different errors the connection attempt raises, `Watch`
ends in the same nil-client panic, which carries neither error, after the single connection
attempt and without any request. -/
theorem Watch_discards_connect_error :
    Get (unreachableStore (GoError.fresh "dial timeout")) sampleClient "p" true []
        = (Except.error (GoError.fresh "dial timeout"),
            [Event.New (dialConfig ["127.0.0.1:2379"] 5000000000)]) ∧
      Watch (unreachableStore (GoError.fresh "dial timeout")) sampleClient "p" []
        = (WatchResult.nilClientPanic,
            [Event.New (dialConfig ["127.0.0.1:2379"] 5000000000)]) ∧
      Watch (unreachableStore (GoError.fresh "no endpoints")) sampleClient "p" []
        = (WatchResult.nilClientPanic,
            [Event.New (dialConfig ["127.0.0.1:2379"] 5000000000)]) ∧
      GoError.fresh "dial timeout" ≠ GoError.fresh "no endpoints" :=
  ⟨rfl, rfl, rfl, by decide⟩

/-- After a failed connection attempt `Watch` issues no request, for every library. -/
theorem Watch_no_request_after_failed_connect (lib : Library) (e : EtcdV3Client) (pfx : String)
    (hist : List Event) (err : GoError)
    (hfail : lib.New hist (dialConfig e.endpoints e.dialTimeout) = some err) :
    ((Watch lib e pfx hist).2.drop hist.length).countP isRequest = 0 := by
  rw [Watch_trace, drop_hist, hfail]
  simp [isRequest]

/-- The error handling of the adapter, for every library: for `Get`, `Put`, `Delete` and the
transaction `Commit`, an error of the connection attempt is returned to the caller unchanged
with no request issued, and when the connection succeeds the store's answer to the single
request (its error included) is returned unchanged; when the connection succeeds `Watch`
returns the store's channel unchanged.  Each of the five makes exactly one connection attempt
and at most one request. -/
theorem adapter_errors_returned_unchanged (lib : Library) (e : EtcdV3Client) (t : EtcdV3Txn)
    (key value pfx : String) (withPrefix : Bool) (hist : List Event) :
    (∀ err, lib.New hist (dialConfig e.endpoints e.dialTimeout) = some err →
        Put lib e key value hist
            = (Except.error err, hist ++ [Event.New (dialConfig e.endpoints e.dialTimeout)]) ∧
          Get lib e key withPrefix hist
            = (Except.error err, hist ++ [Event.New (dialConfig e.endpoints e.dialTimeout)]) ∧
          Delete lib e key withPrefix hist
            = (Except.error err, hist ++ [Event.New (dialConfig e.endpoints e.dialTimeout)])) ∧
      (∀ err, lib.New hist (dialConfig t.endpoints t.dialTimeout) = some err →
        Commit lib t hist
          = (Except.error err, hist ++ [Event.New (dialConfig t.endpoints t.dialTimeout)])) ∧
      (lib.New hist (dialConfig e.endpoints e.dialTimeout) = none →
        (Put lib e key value hist).1
            = lib.Put (hist ++ [Event.New (dialConfig e.endpoints e.dialTimeout)])
                (Context.WithTimeout e.requestTimeout) key value ∧
          (Get lib e key withPrefix hist).1
            = lib.Get (hist ++ [Event.New (dialConfig e.endpoints e.dialTimeout)])
                (Context.WithTimeout e.requestTimeout) key
                (if withPrefix then [OpOption.WithPrefix] else []) ∧
          (Delete lib e key withPrefix hist).1
            = lib.Delete (hist ++ [Event.New (dialConfig e.endpoints e.dialTimeout)])
                (Context.WithTimeout e.requestTimeout) key
                (if withPrefix then [OpOption.WithPrefix, OpOption.WithPrevKV] else []) ∧
          (Watch lib e pfx hist).1
            = WatchResult.chan
                (lib.Watch (hist ++ [Event.New (dialConfig e.endpoints e.dialTimeout)])
                  Context.Background pfx [OpOption.WithPrefix])) ∧
      (lib.New hist (dialConfig t.endpoints t.dialTimeout) = none →
        (Commit lib t hist).1
          = lib.TxnThenCommit (hist ++ [Event.New (dialConfig t.endpoints t.dialTimeout)])
              (Context.WithTimeout t.requestTimeout) t.ops) ∧
      (((Put lib e key value hist).2.drop hist.length).countP isConnect = 1 ∧
        ((Put lib e key value hist).2.drop hist.length).countP isRequest ≤ 1) ∧
      (((Get lib e key withPrefix hist).2.drop hist.length).countP isConnect = 1 ∧
        ((Get lib e key withPrefix hist).2.drop hist.length).countP isRequest ≤ 1) ∧
      (((Delete lib e key withPrefix hist).2.drop hist.length).countP isConnect = 1 ∧
        ((Delete lib e key withPrefix hist).2.drop hist.length).countP isRequest ≤ 1) ∧
      (((Commit lib t hist).2.drop hist.length).countP isConnect = 1 ∧
        ((Commit lib t hist).2.drop hist.length).countP isRequest ≤ 1) ∧
      (((Watch lib e pfx hist).2.drop hist.length).countP isConnect = 1 ∧
        ((Watch lib e pfx hist).2.drop hist.length).countP isRequest ≤ 1) := by
  refine ⟨?_, ?_, ?_, ?_, ?_, ?_, ?_, ?_, ?_⟩
  · intro err h
    unfold dialConfig at h
    refine ⟨?_, ?_, ?_⟩
    · simp [Put, h, dialConfig]
    · simp [Get, h, dialConfig]
    · simp [Delete, h, dialConfig]
  · intro err h
    unfold dialConfig at h
    simp [Commit, h, dialConfig]
  · intro h
    unfold dialConfig at h
    refine ⟨?_, ?_, ?_, ?_⟩
    · simp [Put, h, dialConfig]
    · cases withPrefix <;> simp [Get, h, dialConfig]
    · cases withPrefix <;> simp [Delete, h, dialConfig]
    · simp [Watch, h, dialConfig]
  · intro h
    unfold dialConfig at h
    simp [Commit, h, dialConfig]
  · rw [Put_trace, drop_hist]
    cases lib.New hist (dialConfig e.endpoints e.dialTimeout) <;> simp [isConnect, isRequest]
  · rw [Get_trace, drop_hist]
    cases lib.New hist (dialConfig e.endpoints e.dialTimeout) <;> simp [isConnect, isRequest]
  · rw [Delete_trace, drop_hist]
    cases lib.New hist (dialConfig e.endpoints e.dialTimeout) <;> simp [isConnect, isRequest]
  · rw [Commit_trace, drop_hist]
    cases lib.New hist (dialConfig t.endpoints t.dialTimeout) <;> simp [isConnect, isRequest]
  · rw [Watch_trace, drop_hist]
    cases lib.New hist (dialConfig e.endpoints e.dialTimeout) <;> simp [isConnect, isRequest]

/-- An unreachable store and a store that fails every request: in both cases `Get` hands back
the store's error, and after the failed connection nothing else is sent. -/
theorem adapter_errors_returned_unchanged_witness :
    Get (unreachableStore (GoError.fresh "dial timeout")) sampleClient "k" false []
        = (Except.error (GoError.fresh "dial timeout"),
            [] ++ [Event.New (dialConfig sampleClient.endpoints sampleClient.dialTimeout)]) ∧
      (Get (failingStore (GoError.fresh "request timeout")) sampleClient "k" false []).1
        = Except.error (GoError.fresh "request timeout") :=
  ⟨((adapter_errors_returned_unchanged (unreachableStore (GoError.fresh "dial timeout"))
      sampleClient (Txn sampleClient) "k" "v" "p" false []).1 _ rfl).2.1,
    ((adapter_errors_returned_unchanged (failingStore (GoError.fresh "request timeout"))
      sampleClient (Txn sampleClient) "k" "v" "p" false []).2.2.1 rfl).2.1⟩

end etcdclient

/-! ## Theorems: package `docker` -/

namespace docker

open dockerclient

/-- Claim C8: `NewAuthConfig(username, password)` returns an error, and no config, exactly when
the username or the password is empty; otherwise it returns the config holding both arguments.
When either credential of the registry is empty, `NewClient` returns that error without any
call to the docker client library. -/
theorem NewAuthConfig_error_iff (lib : Library) (username password endpoint certPath : String)
    (registry : RegistryCompose) (hist : List Event) :
    ((∃ err, NewAuthConfig username password = Except.error err) ↔
        (username = "" ∨ password = "")) ∧
      (¬ (username = "" ∨ password = "") →
        NewAuthConfig username password
          = Except.ok { Username := username, Password := password }) ∧
      ((registry.RegistryUsername = "" ∨ registry.RegistryPassword = "") →
        NewClient lib endpoint certPath registry hist = (Except.error errAuthNotSet, hist)) := by
  refine ⟨?_, ?_, ?_⟩
  · by_cases h : username = "" ∨ password = ""
    · simp [NewAuthConfig, h]
    · simp [NewAuthConfig, h]
  · intro h
    simp [NewAuthConfig, h]
  · intro h
    simp [NewClient, NewAuthConfig, h]

/-- An empty password: `NewAuthConfig` fails and `NewClient` makes no call. -/
theorem NewAuthConfig_error_iff_witness :
    (∃ err, NewAuthConfig "admin" "" = Except.error err) ∧
      NewClient sampleDaemon "tcp://10.0.0.1:2376" "/certs"
          { RegistryLocation := "cargo.caicloud.io", RegistryUsername := "admin",
            RegistryPassword := "" } []
        = (Except.error errAuthNotSet, []) :=
  ⟨(NewAuthConfig_error_iff sampleDaemon "admin" "" "" "" ⟨"", "", ""⟩ []).1.mpr (Or.inr rfl),
    (NewAuthConfig_error_iff sampleDaemon "" "" "tcp://10.0.0.1:2376" "/certs"
      { RegistryLocation := "cargo.caicloud.io", RegistryUsername := "admin",
        RegistryPassword := "" } []).2.2 (Or.inr rfl)⟩

/-- Claim C9: `GetImageNameWithTag` returns the registry, the lower-cased username, the
lower-cased service name and the version joined as `R/user/service:version`, with the registry
and the version kept as given, and this is `GetImageNameNoTag` of the same username and service
name followed by `:` and the version. -/
theorem GetImageNameWithTag_eq (lib : Library) (c : Client)
    (username serviceName versionName : String) :
    GetImageNameWithTag lib c username serviceName versionName
        = c.Registry ++ "/" ++ lib.ToLower username ++ "/" ++ lib.ToLower serviceName ++ ":"
            ++ versionName ∧
      GetImageNameWithTag lib c username serviceName versionName
        = GetImageNameNoTag lib c username serviceName ++ ":" ++ versionName := by
  constructor
  · apply String.ext
    simp [GetImageNameWithTag, fmt.Sprintf, fmt.Sprintf.go]
  · apply String.ext
    simp [GetImageNameWithTag, GetImageNameNoTag, fmt.Sprintf, fmt.Sprintf.go]

/-- Claim C7: when the image name does not parse, `PullImage` returns the parse error and sends
no pull request; when it parses to a reference without a tag, or with an empty tag, the pull
request names the repository `imageName ++ ":latest"`; when it parses to a reference with a
non-empty tag, the pull request names `imageName` unchanged.  In both cases the answer of the
single pull request is returned. -/
theorem PullImage_repository (lib : Library) (c : Client) (imageName : String)
    (hist : List Event) :
    (∀ err, lib.Parse imageName = Except.error err →
        PullImage lib c imageName hist = (some err, hist)) ∧
      (∀ repo, lib.Parse imageName = Except.ok repo →
        (repo.tag = none ∨ repo.tag = some "") →
        PullImage lib c imageName hist
          = (lib.PullImage hist
                { Repository := imageName ++ ":latest", Registry := c.Registry }
                { Username := c.AuthConfig.Username, Password := c.AuthConfig.Password },
              hist ++ [Event.PullImage
                { Repository := imageName ++ ":latest", Registry := c.Registry }
                { Username := c.AuthConfig.Username, Password := c.AuthConfig.Password }])) ∧
      (∀ repo t, lib.Parse imageName = Except.ok repo → repo.tag = some t → t ≠ "" →
        PullImage lib c imageName hist
          = (lib.PullImage hist { Repository := imageName, Registry := c.Registry }
                { Username := c.AuthConfig.Username, Password := c.AuthConfig.Password },
              hist ++ [Event.PullImage { Repository := imageName, Registry := c.Registry }
                { Username := c.AuthConfig.Username, Password := c.AuthConfig.Password }])) := by
  have hlatest : fmt.Sprintf "%s:%s" [imageName, "latest"] = imageName ++ ":latest" := by
    apply String.ext
    simp [fmt.Sprintf, fmt.Sprintf.go]
  refine ⟨?_, ?_, ?_⟩
  · intro err h
    simp [PullImage, h]
  · intro repo h htag
    rcases htag with ht | ht
    · simp [PullImage, h, ht, hlatest]
    · simp [PullImage, h, ht, hlatest]
  · intro repo t h ht hne
    simp [PullImage, h, ht, hne]

/-- The untagged name `alpine` is pulled as `alpine:latest`, the tagged name `busybox:1.0` as
it is, and the empty name is rejected before any request. -/
theorem PullImage_repository_witness :
    PullImage sampleDaemon sampleClient "alpine" []
        = (none, [] ++ [Event.PullImage
            { Repository := "alpine" ++ ":latest", Registry := "cargo.caicloud.io" }
            { Username := "u", Password := "p" }]) ∧
      PullImage sampleDaemon sampleClient "busybox:1.0" []
        = (none, [] ++ [Event.PullImage
            { Repository := "busybox:1.0", Registry := "cargo.caicloud.io" }
            { Username := "u", Password := "p" }]) ∧
      PullImage sampleDaemon sampleClient "" []
        = (some (GoError.sentinel "invalid reference format"), []) :=
  ⟨(PullImage_repository sampleDaemon sampleClient "alpine" []).2.1 _ rfl (Or.inl rfl),
    (PullImage_repository sampleDaemon sampleClient "busybox:1.0" []).2.2 _ "1.0" rfl rfl
      (by decide),
    (PullImage_repository sampleDaemon sampleClient "" []).1 _ rfl⟩

theorem PullImage_trace (lib : Library) (c : Client) (imageName : String) (hist : List Event) :
    (PullImage lib c imageName hist).2 = hist ∨
      ∃ opts auth, (PullImage lib c imageName hist).2 = hist ++ [Event.PullImage opts auth] := by
  unfold PullImage
  cases lib.Parse imageName with
  | error err => left; rfl
  | ok repo => right; exact ⟨_, _, rfl⟩

/-- What `RunContainer` does once the image is known to be there, on the trace `h2`. -/
theorem RunContainer_create_start (lib : Library) (c : Client) (cco : CreateContainerOptions)
    (hist h2 : List Event)
    (hready : (lib.InspectImage hist cco.Config.Image = none ∧
          h2 = hist ++ [Event.InspectImage cco.Config.Image]) ∨
        (lib.InspectImage hist cco.Config.Image = some ErrNoSuchImage ∧
          PullImage lib c cco.Config.Image (hist ++ [Event.InspectImage cco.Config.Image])
            = (none, h2))) :
    RunContainer lib c cco hist
      = match lib.CreateContainer h2 cco with
        | Except.error err => (("", some err), h2 ++ [Event.CreateContainer cco])
        | Except.ok container =>
          match lib.StartContainer (h2 ++ [Event.CreateContainer cco]) container.ID
              cco.HostConfig with
          | some err =>
            (("", some err),
              h2 ++ [Event.CreateContainer cco,
                Event.StartContainer container.ID cco.HostConfig,
                Event.RemoveContainer
                  { ID := container.ID, RemoveVolumes := false, Force := false }])
          | none =>
            ((container.ID, none),
              h2 ++ [Event.CreateContainer cco,
                Event.StartContainer container.ID cco.HostConfig]) := by
  rcases hc : lib.CreateContainer h2 cco with err | container
  · rcases hready with ⟨hin, heq⟩ | ⟨hin, hpull⟩
    · simp [RunContainer, IsImagePresent, hin, ← heq, hc]
    · simp [RunContainer, IsImagePresent, hin, hpull, hc]
  · rcases hs : lib.StartContainer (h2 ++ [Event.CreateContainer cco]) container.ID
        cco.HostConfig with _ | err
    · rcases hready with ⟨hin, heq⟩ | ⟨hin, hpull⟩
      · simp [RunContainer, IsImagePresent, hin, ← heq, hc, hs]
      · simp [RunContainer, IsImagePresent, hin, hpull, hc, hs]
    · rcases hready with ⟨hin, heq⟩ | ⟨hin, hpull⟩
      · simp [RunContainer, IsImagePresent, hin, ← heq, hc, hs]
      · simp [RunContainer, IsImagePresent, hin, hpull, hc, hs]

/-- Claim C6: `RunContainer` first checks that the image is present.  If the check fails, it
returns the empty ID and that error and does nothing more.  It makes no pull when the image is
present and runs `PullImage` right after the check when the image is absent; if `PullImage`
fails, it returns the empty ID and that error without creating anything.  After the check, and
the pull if there was one, it creates the container: if that fails, it returns the empty ID and
that error without starting anything; otherwise it starts the created container and returns its
ID with no error, and if the start fails it issues a remove for that very container and returns
the empty ID with the start error. -/
theorem RunContainer_steps (lib : Library) (c : Client) (cco : CreateContainerOptions)
    (hist : List Event) :
    (∃ more, (RunContainer lib c cco hist).2
        = hist ++ Event.InspectImage cco.Config.Image :: more) ∧
      (∀ err, lib.InspectImage hist cco.Config.Image = some err → err ≠ ErrNoSuchImage →
        RunContainer lib c cco hist
          = (("", some err), hist ++ [Event.InspectImage cco.Config.Image])) ∧
      (lib.InspectImage hist cco.Config.Image = none →
        ∀ opts auth,
          Event.PullImage opts auth ∉ (RunContainer lib c cco hist).2.drop hist.length) ∧
      (lib.InspectImage hist cco.Config.Image = some ErrNoSuchImage →
        (∃ more, (RunContainer lib c cco hist).2
          = (PullImage lib c cco.Config.Image
              (hist ++ [Event.InspectImage cco.Config.Image])).2 ++ more) ∧
        ∀ err, (PullImage lib c cco.Config.Image
              (hist ++ [Event.InspectImage cco.Config.Image])).1 = some err →
          RunContainer lib c cco hist
            = (("", some err), (PullImage lib c cco.Config.Image
                (hist ++ [Event.InspectImage cco.Config.Image])).2)) ∧
      (∀ h2, ((lib.InspectImage hist cco.Config.Image = none ∧
              h2 = hist ++ [Event.InspectImage cco.Config.Image]) ∨
            (lib.InspectImage hist cco.Config.Image = some ErrNoSuchImage ∧
              PullImage lib c cco.Config.Image (hist ++ [Event.InspectImage cco.Config.Image])
                = (none, h2))) →
        (∀ err, lib.CreateContainer h2 cco = Except.error err →
          RunContainer lib c cco hist
            = (("", some err), h2 ++ [Event.CreateContainer cco])) ∧
        (∀ container, lib.CreateContainer h2 cco = Except.ok container →
          (lib.StartContainer (h2 ++ [Event.CreateContainer cco]) container.ID cco.HostConfig
              = none →
            RunContainer lib c cco hist
              = ((container.ID, none),
                  h2 ++ [Event.CreateContainer cco,
                    Event.StartContainer container.ID cco.HostConfig])) ∧
          (∀ err, lib.StartContainer (h2 ++ [Event.CreateContainer cco]) container.ID
                cco.HostConfig = some err →
            RunContainer lib c cco hist
              = (("", some err),
                  h2 ++ [Event.CreateContainer cco,
                    Event.StartContainer container.ID cco.HostConfig,
                    Event.RemoveContainer
                      { ID := container.ID, RemoveVolumes := false, Force := false }])))) := by
  have hF : ∀ h2, ((lib.InspectImage hist cco.Config.Image = none ∧
              h2 = hist ++ [Event.InspectImage cco.Config.Image]) ∨
            (lib.InspectImage hist cco.Config.Image = some ErrNoSuchImage ∧
              PullImage lib c cco.Config.Image (hist ++ [Event.InspectImage cco.Config.Image])
                = (none, h2))) →
        ∃ more, (RunContainer lib c cco hist).2 = h2 ++ Event.CreateContainer cco :: more ∧
          ∀ opts auth, Event.PullImage opts auth ∉ Event.CreateContainer cco :: more := by
    intro h2 hready
    rw [RunContainer_create_start lib c cco hist h2 hready]
    rcases hc : lib.CreateContainer h2 cco with err | container
    · exact ⟨[], rfl, by simp⟩
    · rcases hs : lib.StartContainer (h2 ++ [Event.CreateContainer cco]) container.ID
        cco.HostConfig with _ | err
      · exact ⟨[Event.StartContainer container.ID cco.HostConfig], by simp only [hs],
          by simp⟩
      · exact ⟨[Event.StartContainer container.ID cco.HostConfig,
          Event.RemoveContainer { ID := container.ID, RemoveVolumes := false, Force := false }],
          by simp only [hs], by simp⟩
  have hB : ∀ err, lib.InspectImage hist cco.Config.Image = some err →
        err ≠ ErrNoSuchImage →
        RunContainer lib c cco hist
          = (("", some err), hist ++ [Event.InspectImage cco.Config.Image]) := by
    intro err h hne
    simp [RunContainer, IsImagePresent, h, hne]
  have hE : lib.InspectImage hist cco.Config.Image = some ErrNoSuchImage →
      ∀ err, (PullImage lib c cco.Config.Image
              (hist ++ [Event.InspectImage cco.Config.Image])).1 = some err →
          RunContainer lib c cco hist
            = (("", some err), (PullImage lib c cco.Config.Image
                (hist ++ [Event.InspectImage cco.Config.Image])).2) := by
    intro h err hp
    rcases hpull : PullImage lib c cco.Config.Image
      (hist ++ [Event.InspectImage cco.Config.Image]) with ⟨r, h2⟩
    rw [hpull] at hp
    simp only at hp
    subst hp
    simp [RunContainer, IsImagePresent, h, hpull]
  refine ⟨?_, hB, ?_, ?_, ?_⟩
  · rcases hin : lib.InspectImage hist cco.Config.Image with _ | err
    · obtain ⟨more, hm, _⟩ := hF _ (Or.inl ⟨hin, rfl⟩)
      exact ⟨_, by rw [hm, List.append_assoc]; rfl⟩
    · by_cases hne : err = ErrNoSuchImage
      · subst hne
        rcases hpull : PullImage lib c cco.Config.Image
          (hist ++ [Event.InspectImage cco.Config.Image]) with ⟨r, h2⟩
        have htr := PullImage_trace lib c cco.Config.Image
          (hist ++ [Event.InspectImage cco.Config.Image])
        rw [hpull] at htr
        simp only at htr
        cases r with
        | some perr =>
          have := hE hin perr (by rw [hpull])
          rw [this, hpull]
          rcases htr with rfl | ⟨opts, auth, rfl⟩
          · exact ⟨[], rfl⟩
          · exact ⟨[Event.PullImage opts auth], by simp⟩
        | none =>
          obtain ⟨more, hm, _⟩ := hF h2 (Or.inr ⟨hin, hpull⟩)
          rw [hm]
          rcases htr with rfl | ⟨opts, auth, rfl⟩
          · exact ⟨_, by rw [List.append_assoc]; rfl⟩
          · exact ⟨_, by simp only [List.append_assoc]; rfl⟩
      · exact ⟨[], by rw [hB err hin hne]⟩
  · intro hin opts auth
    obtain ⟨more, hm, hno⟩ := hF _ (Or.inl ⟨hin, rfl⟩)
    rw [hm, List.append_assoc, List.drop_left]
    intro hmem
    rcases List.mem_cons.mp hmem with h | h
    · cases h
    · exact hno opts auth h
  · intro hin
    refine ⟨?_, hE hin⟩
    rcases hpull : PullImage lib c cco.Config.Image
      (hist ++ [Event.InspectImage cco.Config.Image]) with ⟨r, h2⟩
    cases r with
    | some perr =>
      have := hE hin perr (by rw [hpull])
      rw [this, hpull]
      exact ⟨[], by simp⟩
    | none =>
      obtain ⟨more, hm, _⟩ := hF h2 (Or.inr ⟨hin, hpull⟩)
      exact ⟨_, hm⟩
  · intro h2 hready
    have hrun := RunContainer_create_start lib c cco hist h2 hready
    refine ⟨?_, ?_⟩
    · intro err hc
      rw [hrun, hc]
    · intro container hc
      refine ⟨?_, ?_⟩
      · intro hs
        rw [hrun, hc]
        simp only [hs]
      · intro err hs
        rw [hrun, hc]
        simp only [hs]

/-- The image `alpine` is absent from the sample daemon: it is pulled as `alpine:latest`, the
container `c1` is created, its start fails, `c1` is removed, and the start error comes back
with the empty ID. -/
theorem RunContainer_steps_witness :
    RunContainer sampleDaemon sampleClient sampleRequest []
      = (("", some (GoError.fresh "port is already allocated")),
          [Event.InspectImage "alpine",
              Event.PullImage { Repository := "alpine:latest", Registry := "cargo.caicloud.io" }
                { Username := "u", Password := "p" }]
            ++ [Event.CreateContainer sampleRequest,
              Event.StartContainer "c1" { Binds := [] },
              Event.RemoveContainer { ID := "c1", RemoveVolumes := false, Force := false }]) :=
  (((RunContainer_steps sampleDaemon sampleClient sampleRequest []).2.2.2.2
      [Event.InspectImage "alpine",
        Event.PullImage { Repository := "alpine:latest", Registry := "cargo.caicloud.io" }
          { Username := "u", Password := "p" }]
      (Or.inr ⟨rfl, rfl⟩)).2 { ID := "c1" } rfl).2 _ rfl

end docker
